import Mathlib

set_option maxRecDepth 100000

/-!
Shallow embedding of the libscapi Pedersen commitment scheme
(`CommitmentSchemePedersen.cpp`) and the SigmaDH protocol
(`SigmaProtocolDH.cpp`), over the prime-order dlog-group abstraction they
consume.

The group abstraction (spec §4.1) is instantiated on the multiplicative
monoid of `ZMod p`, in the style of the Zp-safe-prime group the sources
construct by default: a *member* of the order-`q` subgroup is an element
`x` with `x ^ q = 1`.  Scalars are arbitrary-precision integers (`ℤ`,
mirroring `biginteger`); exponents are reduced mod `q` by `exponentiate`,
as the consumed contract requires ("accepts negative exponents by
reducing mod q").  The C++ `%` on `biginteger` truncates toward zero and
is rendered as `Int.tmod`.  Fallible C++ paths (throws, null pointers)
are rendered with `Except` / `Option`.
-/

namespace Libscapi

/-- Dlog-group handle (spec §4.1 consumed contract) over `ZMod p`.
`q` is `getOrder()`, `g` is `getGenerator()`, and `validGroup` records the
outcome of the structural `validateGroup()` test. -/
structure DlogGroup (p : ℕ) where
  q : ℕ
  g : ZMod p
  validGroup : Bool
  deriving DecidableEq

/-- Modular exponentiation: the §4.1 contract "accepts negative exponents
by reducing mod q", so the integer exponent is reduced with the
mathematical (euclidean) mod before the monoid power. -/
def DlogGroup.exponentiate {p : ℕ} (G : DlogGroup p) (base : ZMod p) (k : ℤ) : ZMod p :=
  base ^ (k % (G.q : ℤ)).toNat

/-- Group multiplication (`multiplyGroupElements`). -/
def DlogGroup.multiply {p : ℕ} (_G : DlogGroup p) (a b : ZMod p) : ZMod p := a * b

/-- Membership test (`isMember`): in the Zp-style group of order `q`, an
element is a member exactly when its `q`-th power is one. -/
def DlogGroup.isMember {p : ℕ} (G : DlogGroup p) (x : ZMod p) : Bool :=
  decide (x ^ G.q = 1)

/-- Structural sanity test (`validateGroup()`). -/
def DlogGroup.validateGroup {p : ℕ} (G : DlogGroup p) : Bool := G.validGroup

/-- Deserialization (`reconstructElement`): with `check = true` the result
must lie in the group, otherwise the call fails (`InvalidElement`). -/
def DlogGroup.reconstructElement {p : ℕ} (G : DlogGroup p) (check : Bool) (x : ZMod p) :
    Option (ZMod p) :=
  if check && !(G.isMember x) then none else some x

/-- Error taxonomy (spec §7), carrying the C++ exception messages.
`unknownId` is the spec's taxonomy entry for "decommit references a
commitment never seen"; the C++ sources raise no such error. -/
inductive ProtocolError where
  | securityLevel (msg : String)
  | invalidDlogGroup (msg : String)
  | invalidArgument (msg : String)
  | cheatAttempt (msg : String)
  | invalidElement
  | unknownId
  | nullDereference
  deriving DecidableEq

/-- Equality on `Except` results is decidable when it is on both sides;
used to evaluate protocol outcomes on concrete inputs. -/
instance instDecEqExcept {ε α : Type} [DecidableEq ε] [DecidableEq α] :
    DecidableEq (Except ε α) := fun x y =>
  match x, y with
  | .error a, .error b =>
      if h : a = b then .isTrue (by rw [h]) else .isFalse (fun hc => h (Except.error.inj hc))
  | .error _, .ok _ => .isFalse (fun hc => Except.noConfusion hc)
  | .ok _, .error _ => .isFalse (fun hc => Except.noConfusion hc)
  | .ok a, .ok b =>
      if h : a = b then .isTrue (by rw [h]) else .isFalse (fun hc => h (Except.ok.inj hc))

/-- Pedersen commitment wire message: the committed element `c` in
sendable form together with the 64-bit commitment id. -/
structure CmtPedersenCommitmentMessage (p : ℕ) where
  c : ZMod p
  id : ℤ
  deriving DecidableEq

/-- Pedersen decommitment wire message `(x, r)`. -/
structure CmtPedersenDecommitmentMessage where
  x : ℤ
  r : ℤ
  deriving DecidableEq

/-- Receiver session state: group handle, secret trapdoor, the public
element `h = g^trapdoor`, and the id-indexed commitment map. -/
structure CmtPedersenReceiverCore (p : ℕ) where
  dlog : DlogGroup p
  trapdoor : ℤ
  h : ZMod p
  commitmentMap : List (ℤ × CmtPedersenCommitmentMessage p)
  deriving DecidableEq

/-- `CmtPedersenReceiverCore::verifyDecommitment`.  The commitment message
argument is optional because `receiveDecommitment` can hand it a null
pointer; the failed `dynamic_cast` on that null pointer raises
`invalid_argument`.  Otherwise: reject (`.ok none`, the C++ `NULL`
return) when `x < 0 ∨ x > q`; else compute `g^r` and `h^x`, reconstruct
the stored commitment with validation, and accept with `x` exactly when
`c = g^r * h^x`. -/
def CmtPedersenReceiverCore.verifyDecommitment {p : ℕ} (R : CmtPedersenReceiverCore p)
    (commitmentMsg : Option (CmtPedersenCommitmentMessage p))
    (decommitmentMsg : CmtPedersenDecommitmentMessage) :
    Except ProtocolError (Option ℤ) :=
  match commitmentMsg with
  | none =>
      .error (.invalidArgument
        "The received message should be an instance of CmtPedersenCommitmentMessage")
  | some commitmentMsgPedersen =>
      let x := decommitmentMsg.x
      let r := decommitmentMsg.r
      if x < 0 ∨ x > (R.dlog.q : ℤ) then .ok none
      else
        let gTor := R.dlog.exponentiate R.dlog.g r
        let hTox := R.dlog.exponentiate R.h x
        match R.dlog.reconstructElement true commitmentMsgPedersen.c with
        | none => .error .invalidElement
        | some commitmentElement =>
            if commitmentElement = R.dlog.multiply gTor hTox then .ok (some x)
            else .ok none

/-- `CmtPedersenReceiverCore::receiveDecommitment` (the decommitment
message read from the channel is passed as a parameter).  The C++
`commitmentMap[id]` (std::map `operator[]`) default-constructs a *null*
`shared_ptr` when `id` is absent, which is then handed to
`verifyDecommitment`; the absent case is therefore `none`. -/
def CmtPedersenReceiverCore.receiveDecommitment {p : ℕ} (R : CmtPedersenReceiverCore p)
    (id : ℤ) (msg : CmtPedersenDecommitmentMessage) :
    Except ProtocolError (Option ℤ) :=
  let receivedCommitment := R.commitmentMap.lookup id
  R.verifyDecommitment receivedCommitment msg

/-- Committer-side record for one commitment: the sampled randomness `r`,
the committed value `x`, and the computed commitment `c`
(`CmtPedersenCommitmentPhaseValues`). -/
structure CmtPedersenCommitmentPhaseValues (p : ℕ) where
  r : ℤ
  x : ℤ
  c : ZMod p
  deriving DecidableEq

/-- Committer session state: group handle, the receiver's public `h`, and
the id-indexed openings map. -/
structure CmtPedersenCommitterCore (p : ℕ) where
  dlog : DlogGroup p
  h : ZMod p
  commitmentMap : List (ℤ × CmtPedersenCommitmentPhaseValues p)
  deriving DecidableEq

/-- `CmtPedersenCommitterCore::generateCommitmentMsg`.  The randomness
`r`, sampled by the C++ from `[0, q-1]`, is passed as a parameter.
Throws `invalid_argument` unless `0 ≤ x ≤ q` (note the inclusive upper
bound in the source's `*x > dlog->getOrder()` check); then computes
`c = g^r * h^x`, stores `(r, x, c)` under `id`, and returns the wire
message `(c, id)`. -/
def CmtPedersenCommitterCore.generateCommitmentMsg {p : ℕ} (C : CmtPedersenCommitterCore p)
    (x : ℤ) (id : ℤ) (r : ℤ) :
    Except ProtocolError (CmtPedersenCommitmentMessage p × CmtPedersenCommitterCore p) :=
  if x < 0 ∨ x > (C.dlog.q : ℤ) then .error (.invalidArgument "The input must be in Zq")
  else
    let gToR := C.dlog.exponentiate C.dlog.g r
    let hToX := C.dlog.exponentiate C.h x
    let c := C.dlog.multiply gToR hToX
    .ok (⟨c, id⟩, { C with commitmentMap := (id, ⟨r, x, c⟩) :: C.commitmentMap })

/-- `CmtPedersenCommitterCore::generateDecommitmentMsg`.  The C++
dereferences `commitmentMap[id]` without a presence check; an absent id
is a null dereference, rendered as `none`. -/
def CmtPedersenCommitterCore.generateDecommitmentMsg {p : ℕ} (C : CmtPedersenCommitterCore p)
    (id : ℤ) : Option CmtPedersenDecommitmentMessage :=
  match C.commitmentMap.lookup id with
  | none => none
  | some values => some ⟨values.x, values.r⟩

/-- Receiver commit-phase output handed to the committer: either the basic
variant (id only) or the trapdoor variant (id and trapdoor scalar). -/
inductive CmtRCommitPhaseOutput where
  | basic (id : ℤ)
  | trapdoorOut (id : ℤ) (trap : ℤ)
  deriving DecidableEq

/-- Trapdoor committer: the committer state whose `validate` checks a
candidate trapdoor (`CmtPedersenTrapdoorCommitter`). -/
structure CmtPedersenTrapdoorCommitter (p : ℕ) where
  dlog : DlogGroup p
  h : ZMod p
  deriving DecidableEq

/-- `CmtPedersenTrapdoorCommitter::validate`: throws `invalid_argument`
unless the output is the trapdoor variant; otherwise returns whether
`g^trap = h`. -/
def CmtPedersenTrapdoorCommitter.validate {p : ℕ} (C : CmtPedersenTrapdoorCommitter p)
    (trap : CmtRCommitPhaseOutput) : Except ProtocolError Bool :=
  match trap with
  | .basic _ =>
      .error (.invalidArgument
        "the given trapdor should be an instance of CmtRTrapdoorCommitPhaseOutput")
  | .trapdoorOut _ t =>
      let gToTrap := C.dlog.exponentiate C.dlog.g t
      .ok (decide (gToTrap = C.h))

/-- SigmaDH common input `(h, u, v)` (the generator `g` is implicit via
the group handle). -/
structure SigmaDHCommonInput (p : ℕ) where
  h : ZMod p
  u : ZMod p
  v : ZMod p
  deriving DecidableEq

/-- SigmaDH prover input: the common input plus the witness `w`. -/
structure SigmaDHProverInput (p : ℕ) where
  common : SigmaDHCommonInput p
  w : ℤ
  deriving DecidableEq

/-- SigmaDH first message `(a, b)` in sendable form. -/
structure SigmaDHMsg (p : ℕ) where
  a : ZMod p
  b : ZMod p
  deriving DecidableEq

/-- Modelled from the spec: the `decodeBigInteger` helper that turns the
challenge bytes into an integer is not among this repository's sources;
§4.5 says "Decode e = big-endian integer(challenge)", so the bytes are
folded big-endian into a non-negative integer. -/
def decodeBigInteger (bytes : List ℕ) : ℤ :=
  ((bytes.foldl (fun acc b => acc * 256 + b) 0 : ℕ) : ℤ)

/-- Modelled from the spec: the `checkChallengeLength` helper lives in a
header not included in this repository's sources; §4.5 says "Require
`|challenge| · 8 == t`". -/
def checkChallengeLength (t : ℕ) (len : ℕ) : Bool := decide (len * 8 = t)

/-- `checkSoundnessParam`, shared verbatim by the three SigmaDH classes:
the soundness parameter is valid iff `2^t < q`. -/
def checkSoundnessParam (q : ℕ) (t : ℕ) : Bool := decide (2 ^ t < q)

/-- SigmaDH prover session state: group handle, soundness parameter `t`,
the stored prover input (null before `computeFirstMsg`), and the
retained randomness `r`. -/
structure SigmaDHProverComputation (p : ℕ) where
  dlog : DlogGroup p
  t : ℕ
  input : Option (SigmaDHProverInput p)
  r : ℤ
  deriving DecidableEq

/-- `SigmaDHProverComputation` constructor: sets the group and `t`, then
throws `invalid_argument` unless `2^t < q`.  The retained input starts
null and `r` starts as the default-constructed biginteger `0`. -/
def SigmaDHProverComputation.construct {p : ℕ} (dlog : DlogGroup p) (t : ℕ) :
    Except ProtocolError (SigmaDHProverComputation p) :=
  if checkSoundnessParam dlog.q t then .ok ⟨dlog, t, none, 0⟩
  else .error (.invalidArgument "soundness parameter t does not satisfy 2^t<q")

/-- `SigmaDHProverComputation::computeFirstMsg`: store the input, sample
`r` (passed as a parameter, drawn from `[0, q-1]` by the C++), and return
`(a, b) = (g^r, h^r)` together with the updated state. -/
def SigmaDHProverComputation.computeFirstMsg {p : ℕ} (P : SigmaDHProverComputation p)
    (input : SigmaDHProverInput p) (rSample : ℤ) :
    SigmaDHMsg p × SigmaDHProverComputation p :=
  let a := P.dlog.exponentiate P.dlog.g rSample
  let b := P.dlog.exponentiate input.common.h rSample
  (⟨a, b⟩, { P with input := some input, r := rSample })

/-- `SigmaDHProverComputation::computeSecondMsg`: throw `CheatAttempt`
on a wrong-length challenge; otherwise decode `e` and return
`z = (r + e*w) mod q` (C++ truncating `%` on bigintegers, `Int.tmod`),
resetting `r` to `0`.  Calling it before `computeFirstMsg` dereferences
the null stored input in the C++, rendered as an error. -/
def SigmaDHProverComputation.computeSecondMsg {p : ℕ} (P : SigmaDHProverComputation p)
    (challenge : List ℕ) : Except ProtocolError (ℤ × SigmaDHProverComputation p) :=
  if !checkChallengeLength P.t challenge.length then
    .error (.cheatAttempt "the length of the given challenge is differ from the soundness parameter")
  else
    match P.input with
    | none => .error .nullDereference
    | some input =>
        let q : ℤ := (P.dlog.q : ℤ)
        let e := decodeBigInteger challenge
        let ew := Int.tmod (e * input.w) q
        let z := Int.tmod (P.r + ew) q
        .ok (z, { P with r := 0 })

/-- SigmaDH verifier session state: group handle, soundness parameter,
and the retained challenge bytes `e`. -/
structure SigmaDHVerifierComputation (p : ℕ) where
  dlog : DlogGroup p
  t : ℕ
  e : List ℕ
  deriving DecidableEq

/-- `SigmaDHVerifierComputation` constructor: throws on an invalid group,
then throws `invalid_argument` unless `2^t < q`.  The retained challenge
starts empty. -/
def SigmaDHVerifierComputation.construct {p : ℕ} (dlog : DlogGroup p) (t : ℕ) :
    Except ProtocolError (SigmaDHVerifierComputation p) :=
  if !dlog.validateGroup then .error (.invalidDlogGroup "invalid dlog")
  else if checkSoundnessParam dlog.q t then .ok ⟨dlog, t, []⟩
  else .error (.invalidArgument "soundness parameter t does not satisfy 2^t<q")

/-- `SigmaDHVerifierComputation::verify`: starting from
`verified = true`, conjoin `isMember h`; reconstruct `a` and `b` with
validation (throwing `InvalidElement` on failure); conjoin
`g^z = a * u^e` and `h^z = b * v^e` with `e` decoded from the retained
challenge bytes; clear the challenge; return the boolean and the updated
state. -/
def SigmaDHVerifierComputation.verify {p : ℕ} (V : SigmaDHVerifierComputation p)
    (input : SigmaDHCommonInput p) (firstMsg : SigmaDHMsg p) (z : ℤ) :
    Except ProtocolError (Bool × SigmaDHVerifierComputation p) :=
  let verified := V.dlog.isMember input.h
  match V.dlog.reconstructElement true firstMsg.a,
        V.dlog.reconstructElement true firstMsg.b with
  | some aElement, some bElement =>
      let eBI := decodeBigInteger V.e
      let left1 := V.dlog.exponentiate V.dlog.g z
      let uToe := V.dlog.exponentiate input.u eBI
      let right1 := V.dlog.multiply aElement uToe
      let verified := verified && decide (left1 = right1)
      let left2 := V.dlog.exponentiate input.h z
      let vToe := V.dlog.exponentiate input.v eBI
      let right2 := V.dlog.multiply bElement vToe
      let verified := verified && decide (left2 = right2)
      .ok (verified, { V with e := [] })
  | _, _ => .error .invalidElement

/-- SigmaDH simulator state: group handle and soundness parameter. -/
structure SigmaDHSimulator (p : ℕ) where
  dlog : DlogGroup p
  t : ℕ
  deriving DecidableEq

/-- `SigmaDHSimulator` constructor: sets the group and `t`, then throws
`invalid_argument` unless `2^t < q`. -/
def SigmaDHSimulator.construct {p : ℕ} (dlog : DlogGroup p) (t : ℕ) :
    Except ProtocolError (SigmaDHSimulator p) :=
  if checkSoundnessParam dlog.q t then .ok ⟨dlog, t⟩
  else .error (.invalidArgument "soundness parameter t does not satisfy 2^t<q")

/-- Simulator output: the first message `(a, b)`, the challenge bytes,
and the response `z` (`SigmaSimulatorOutput` with a `SigmaBIMsg`). -/
structure SigmaSimulatorOutput (p : ℕ) where
  msg : SigmaDHMsg p
  e : List ℕ
  z : ℤ
  deriving DecidableEq

/-- `SigmaDHSimulator::simulate`: throw `CheatAttempt` on a wrong-length
challenge; otherwise with `z` sampled from `[0, q-1]` (passed as a
parameter), decode `e`, set `minusE = q - e`, and output
`((g^z * u^minusE, h^z * v^minusE), e, z)`. -/
def SigmaDHSimulator.simulate {p : ℕ} (S : SigmaDHSimulator p)
    (input : SigmaDHCommonInput p) (challenge : List ℕ) (zSample : ℤ) :
    Except ProtocolError (SigmaSimulatorOutput p) :=
  if !checkChallengeLength S.t challenge.length then
    .error (.cheatAttempt "the length of the given challenge is differ from the soundness parameter")
  else
    let z := zSample
    let gToZ := S.dlog.exponentiate S.dlog.g z
    let e := decodeBigInteger challenge
    let minusE := (S.dlog.q : ℤ) - e
    let uToE := S.dlog.exponentiate input.u minusE
    let a := S.dlog.multiply gToZ uToE
    let hToZ := S.dlog.exponentiate input.h z
    let vToE := S.dlog.exponentiate input.v minusE
    let b := S.dlog.multiply hToZ vToE
    .ok ⟨⟨a, b⟩, challenge, z⟩

/-! Concrete fixtures used by witness theorems: the order-11 subgroup of
the safe-prime field `ZMod 23`, generated by `2` (indeed `2 ^ 11 = 2048 ≡ 1
mod 23`). -/

/-- Concrete group: order `q = 11`, generator `2`, valid. -/
def G23 : DlogGroup 23 := ⟨11, 2, true⟩

/-- Concrete receiver with trapdoor `3` and `h = 2^3 = 8`, empty map. -/
def R23 : CmtPedersenReceiverCore 23 := ⟨G23, 3, 8, []⟩

/-- Concrete committer holding `h = 8`, empty map. -/
def C23 : CmtPedersenCommitterCore 23 := ⟨G23, 8, []⟩

/-- Concrete trapdoor committer holding `h = 8`. -/
def T23 : CmtPedersenTrapdoorCommitter 23 := ⟨G23, 8⟩

/-- Concrete group for SigmaDH witnesses: the order-`359` subgroup of the
safe-prime field `ZMod 719` (`719 = 2*359 + 1`), generated by the square
`4`; here `2^8 = 256 < 359`, so the byte-long challenge `[3]` with
`t = 8` is admissible. -/
def G719 : DlogGroup 719 := ⟨359, 4, true⟩

/-- Concrete SigmaDH prover state after a first message: input
`(h, u, v, w) = (64, 305, 16, 5)` with `64 = 4^3`, `305 = 4^5`,
`16 = 4^2` in `ZMod 719`, retained randomness `r = 7`. -/
def P719 : SigmaDHProverComputation 719 := ⟨G719, 8, some ⟨⟨64, 305, 16⟩, 5⟩, 7⟩

/-! Arithmetic toolkit: powers of elements whose `q`-th power is one may
be reduced mod `q`, and `exponentiate` turns integer-exponent arithmetic
into such reductions. -/

/-- Powers of an element of order dividing `q` reduce mod `q`. -/
theorem pow_mod_eq {p q : ℕ} {x : ZMod p} (hx : x ^ q = 1) (n : ℕ) :
    x ^ (n % q) = x ^ n := by
  conv_rhs => rw [← Nat.div_add_mod n q]
  rw [pow_add, pow_mul, hx, one_pow, one_mul]

/-- Congruent natural exponents give equal powers. -/
theorem pow_congr_mod {p q : ℕ} {x : ZMod p} (hx : x ^ q = 1) {m n : ℕ}
    (h : m % q = n % q) : x ^ m = x ^ n := by
  rw [← pow_mod_eq hx m, ← pow_mod_eq hx n, h]

/-- `toNat` of a euclidean mod of a non-negative integer. -/
theorem toNat_emod_eq {q : ℕ} (hq : 0 < q) {k : ℤ} (hk : 0 ≤ k) :
    (k % (q : ℤ)).toNat = k.toNat % q := by
  have hqz : (q : ℤ) ≠ 0 := by exact_mod_cast hq.ne'
  have h0 : (0 : ℤ) ≤ k % (q : ℤ) := Int.emod_nonneg k hqz
  have : ((k % (q : ℤ)).toNat : ℤ) = ((k.toNat % q : ℕ) : ℤ) := by
    rw [Int.toNat_of_nonneg h0, Int.natCast_mod, Int.toNat_of_nonneg hk]
  exact_mod_cast this

/-- On a non-negative exponent, `exponentiate` is the plain power. -/
theorem exponentiate_nonneg {p : ℕ} (G : DlogGroup p) (hq : 0 < G.q) {x : ZMod p}
    (hx : x ^ G.q = 1) {k : ℤ} (hk : 0 ≤ k) :
    G.exponentiate x k = x ^ k.toNat := by
  unfold DlogGroup.exponentiate
  rw [toNat_emod_eq hq hk, pow_mod_eq hx]

/-- `exponentiate` only sees the exponent mod `q`. -/
theorem exponentiate_emod {p : ℕ} (G : DlogGroup p) (x : ZMod p) (k : ℤ) :
    G.exponentiate x (k % (G.q : ℤ)) = G.exponentiate x k := by
  unfold DlogGroup.exponentiate
  rw [Int.emod_emod_of_dvd k dvd_rfl]

/-- `exponentiate` of a member turns exponent addition into
multiplication. -/
theorem exponentiate_add {p : ℕ} (G : DlogGroup p) (hq : 0 < G.q) {x : ZMod p}
    (hx : x ^ G.q = 1) (j k : ℤ) :
    G.exponentiate x (j + k) = G.exponentiate x j * G.exponentiate x k := by
  unfold DlogGroup.exponentiate
  rw [← pow_add]
  apply pow_congr_mod hx
  have hqz : ((G.q : ℤ)) ≠ 0 := by exact_mod_cast hq.ne'
  have ha : 0 ≤ j % (G.q : ℤ) := Int.emod_nonneg j hqz
  have hb : 0 ≤ k % (G.q : ℤ) := Int.emod_nonneg k hqz
  rw [Int.add_emod j k, toNat_emod_eq hq (add_nonneg ha hb),
    Nat.mod_mod_of_dvd _ dvd_rfl, Int.toNat_add ha hb]

/-- Iterated `exponentiate` of a member multiplies the exponents. -/
theorem exponentiate_exponentiate {p : ℕ} (G : DlogGroup p) (hq : 0 < G.q) {x : ZMod p}
    (hx : x ^ G.q = 1) (j k : ℤ) :
    G.exponentiate (G.exponentiate x j) k = G.exponentiate x (j * k) := by
  unfold DlogGroup.exponentiate
  rw [← pow_mul]
  apply pow_congr_mod hx
  have hqz : ((G.q : ℤ)) ≠ 0 := by exact_mod_cast hq.ne'
  have ha : 0 ≤ j % (G.q : ℤ) := Int.emod_nonneg j hqz
  have hb : 0 ≤ k % (G.q : ℤ) := Int.emod_nonneg k hqz
  rw [Int.mul_emod j k, toNat_emod_eq hq (mul_nonneg ha hb),
    Nat.mod_mod_of_dvd _ dvd_rfl]
  congr 1
  have : ((j % (G.q : ℤ)) * (k % (G.q : ℤ))).toNat
      = (j % (G.q : ℤ)).toNat * (k % (G.q : ℤ)).toNat := by
    rw [← Int.toNat_of_nonneg ha, ← Int.toNat_of_nonneg hb, ← Nat.cast_mul,
      Int.toNat_natCast, Int.toNat_natCast, Int.toNat_natCast]
  rw [this]

/-- `exponentiate` by the group order lands on the identity. -/
theorem exponentiate_order {p : ℕ} (G : DlogGroup p) (x : ZMod p) :
    G.exponentiate x (G.q : ℤ) = 1 := by
  unfold DlogGroup.exponentiate
  rw [Int.emod_self]
  simp

/-- Powers of members are members. -/
theorem member_pow {p q : ℕ} {x : ZMod p} (hx : x ^ q = 1) (n : ℕ) :
    (x ^ n) ^ q = 1 := by
  rw [← pow_mul, mul_comm, pow_mul, hx, one_pow]

/-- Products of members are members. -/
theorem member_mul {p q : ℕ} {x y : ZMod p} (hx : x ^ q = 1) (hy : y ^ q = 1) :
    (x * y) ^ q = 1 := by
  rw [mul_pow, hx, hy, one_mul]

/-- `exponentiate` of a member is a member. -/
theorem member_exponentiate {p : ℕ} (G : DlogGroup p) {x : ZMod p}
    (hx : x ^ G.q = 1) (k : ℤ) : (G.exponentiate x k) ^ G.q = 1 :=
  member_pow hx _

/-- C1: Honest Pedersen round-trip correctness.  For every `0 ≤ x < q`
and any sampled `r`, if the committer (holding `h = g^trapdoor` as
published by the receiver) produces a commitment message via
`generateCommitmentMsg`, then the receiver's `verifyDecommitment` on
that message and the decommitment `(x, r)` returns the non-null value
`x`. -/
theorem pedersen_honest_roundtrip {p : ℕ} (G : DlogGroup p)
    (hg : G.g ^ G.q = 1) (trap x r id : ℤ) (hx0 : 0 ≤ x) (hxq : x < (G.q : ℤ))
    (Cmap : List (ℤ × CmtPedersenCommitmentPhaseValues p))
    (Rmap : List (ℤ × CmtPedersenCommitmentMessage p))
    (msg : CmtPedersenCommitmentMessage p) (C' : CmtPedersenCommitterCore p)
    (hgen : CmtPedersenCommitterCore.generateCommitmentMsg
      ⟨G, G.exponentiate G.g trap, Cmap⟩ x id r = .ok (msg, C')) :
    CmtPedersenReceiverCore.verifyDecommitment
      ⟨G, trap, G.exponentiate G.g trap, Rmap⟩ (some msg) ⟨x, r⟩ = .ok (some x) := by
  have hrange : ¬(x < 0 ∨ x > (G.q : ℤ)) := by omega
  simp only [CmtPedersenCommitterCore.generateCommitmentMsg] at hgen
  rw [if_neg hrange] at hgen
  rw [Except.ok.injEq, Prod.mk.injEq] at hgen
  obtain ⟨hmsg, -⟩ := hgen
  subst hmsg
  have hh : (G.exponentiate G.g trap) ^ G.q = 1 := member_exponentiate G hg trap
  have hc : (G.multiply (G.exponentiate G.g r)
      (G.exponentiate (G.exponentiate G.g trap) x)) ^ G.q = 1 :=
    member_mul (member_exponentiate G hg r) (member_exponentiate G hh x)
  have hmem : G.isMember (G.multiply (G.exponentiate G.g r)
      (G.exponentiate (G.exponentiate G.g trap) x)) = true := by
    simp [DlogGroup.isMember, hc]
  simp only [CmtPedersenReceiverCore.verifyDecommitment]
  rw [if_neg hrange]
  simp only [DlogGroup.reconstructElement, hmem, Bool.not_true, Bool.and_false,
    Bool.false_eq_true, if_false]
  simp

/-- Closed witness for C1: committing `x = 5` with `r = 7` in the
order-11 group (`c = 2^7 * 8^5 = 1` in `ZMod 23`) round-trips to `5`. -/
theorem pedersen_honest_roundtrip_witness :
    CmtPedersenReceiverCore.verifyDecommitment ⟨G23, 3, G23.exponentiate G23.g 3, []⟩
      (some ⟨1, 1⟩) ⟨5, 7⟩ = .ok (some 5) :=
  pedersen_honest_roundtrip G23 (by decide) 3 5 7 1 (by decide) (by decide)
    [] [] ⟨1, 1⟩ ⟨G23, G23.exponentiate G23.g 3, [(1, ⟨7, 5, 1⟩)]⟩ (by decide)

/-- C4: the Pedersen decommit value range check is inclusive at the upper
bound.  `verifyDecommitment` rejects with `None` whenever `x < 0` or
`x > q`; and whenever `0 ≤ x ≤ q` (in particular at the boundary
`x = q`) it does not reject on range but proceeds to reconstruct the
commitment and test the group equation `c = g^r * h^x`. -/
theorem pedersen_range_check_inclusive {p : ℕ} (R : CmtPedersenReceiverCore p)
    (cm : CmtPedersenCommitmentMessage p) (x r : ℤ) :
    (x < 0 ∨ (R.dlog.q : ℤ) < x →
      R.verifyDecommitment (some cm) ⟨x, r⟩ = .ok none)
    ∧ (0 ≤ x → x ≤ (R.dlog.q : ℤ) →
      R.verifyDecommitment (some cm) ⟨x, r⟩ =
        match R.dlog.reconstructElement true cm.c with
        | none => .error .invalidElement
        | some c =>
            if c = R.dlog.multiply (R.dlog.exponentiate R.dlog.g r)
                (R.dlog.exponentiate R.h x) then .ok (some x) else .ok none) := by
  constructor
  · intro hrej
    simp only [CmtPedersenReceiverCore.verifyDecommitment]
    rw [if_pos (by omega)]
  · intro hx0 hxq
    simp only [CmtPedersenReceiverCore.verifyDecommitment]
    rw [if_neg (by omega)]

/-- Closed witness for C4: in the order-11 group, `x = 12 > q` is
rejected with `None`, while the boundary `x = q = 11` passes the range
check and succeeds on the group equation (here `h^11 = 1`, so the
commitment `g^2 * h^11 = 4` opens at `x = 11` with `r = 2`). -/
theorem pedersen_range_check_inclusive_witness :
    (R23.verifyDecommitment (some ⟨4, 7⟩) ⟨12, 2⟩ = .ok none)
    ∧ R23.verifyDecommitment (some ⟨4, 7⟩) ⟨11, 2⟩ = .ok (some 11) :=
  ⟨(pedersen_range_check_inclusive R23 ⟨4, 7⟩ 12 2).1 (by decide),
   ((pedersen_range_check_inclusive R23 ⟨4, 7⟩ 11 2).2 (by decide) (by decide)).trans
     (by decide)⟩

/-- C7 (counterexample): on a receiver whose commitment map is empty,
`receiveDecommitment` does not fail with the spec's `UnknownId` error:
the null map entry flows into `verifyDecommitment`, whose failed cast
raises the wrong-message-type `invalid_argument` instead. -/
theorem receiveDecommitment_no_unknownId :
    R23.receiveDecommitment 0 ⟨1, 1⟩ = .error (.invalidArgument
      "The received message should be an instance of CmtPedersenCommitmentMessage")
    ∧ R23.receiveDecommitment 0 ⟨1, 1⟩ ≠ .error .unknownId := by
  constructor
  · rfl
  · decide

/-- C7 (amended): for every id absent from the receiver's commitment
map, `receiveDecommitment` fails (rather than returning a value), but
with the wrong-message-type `invalid_argument` error produced by the
null commitment entry, not with a dedicated `UnknownId` error. -/
theorem receiveDecommitment_absent_id {p : ℕ} (R : CmtPedersenReceiverCore p)
    (id : ℤ) (msg : CmtPedersenDecommitmentMessage)
    (h : R.commitmentMap.lookup id = none) :
    R.receiveDecommitment id msg = .error (.invalidArgument
      "The received message should be an instance of CmtPedersenCommitmentMessage") := by
  unfold CmtPedersenReceiverCore.receiveDecommitment
  rw [h]
  rfl

/-- Closed witness for the amended C7. -/
theorem receiveDecommitment_absent_id_witness :
    R23.receiveDecommitment 5 ⟨2, 2⟩ = .error (.invalidArgument
      "The received message should be an instance of CmtPedersenCommitmentMessage") :=
  receiveDecommitment_absent_id R23 5 ⟨2, 2⟩ (by decide)

/-- C8: trapdoor validation.  For every candidate scalar presented in a
trapdoor commit-phase output, `validate` returns `true` exactly when
`g^trap` equals the committer's stored `h`. -/
theorem trapdoor_validate_iff {p : ℕ} (C : CmtPedersenTrapdoorCommitter p)
    (id trap : ℤ) :
    C.validate (.trapdoorOut id trap) = .ok true ↔
      C.dlog.exponentiate C.dlog.g trap = C.h := by
  unfold CmtPedersenTrapdoorCommitter.validate
  simp

/-- C10: no range check on the opening randomness `r`.  Whenever the
value `x` passes the range check and the stored commitment is a group
element, `verifyDecommitment` returns `x` exactly when
`g^r * h^x` equals the stored commitment, for every integer `r` —
negative or `≥ q` included; and the group's `exponentiate` reduces the
exponent `r` mod `q`. -/
theorem pedersen_no_r_range_check {p : ℕ} (R : CmtPedersenReceiverCore p)
    (cm : CmtPedersenCommitmentMessage p) (x r : ℤ)
    (hx0 : 0 ≤ x) (hxq : x ≤ (R.dlog.q : ℤ)) (hcm : cm.c ^ R.dlog.q = 1) :
    (R.verifyDecommitment (some cm) ⟨x, r⟩ = .ok (some x) ↔
      cm.c = R.dlog.multiply (R.dlog.exponentiate R.dlog.g r)
        (R.dlog.exponentiate R.h x))
    ∧ R.dlog.exponentiate R.dlog.g r
      = R.dlog.exponentiate R.dlog.g (r % (R.dlog.q : ℤ)) := by
  refine ⟨?_, (exponentiate_emod R.dlog R.dlog.g r).symm⟩
  have hmem : R.dlog.isMember cm.c = true := by simp [DlogGroup.isMember, hcm]
  simp only [CmtPedersenReceiverCore.verifyDecommitment]
  rw [if_neg (by omega)]
  simp only [DlogGroup.reconstructElement, hmem, Bool.not_true, Bool.and_false,
    Bool.false_eq_true, if_false]
  constructor
  · intro hok
    by_contra hne
    rw [if_neg hne] at hok
    exact Option.noConfusion (Except.ok.inj hok)
  · intro heq
    rw [if_pos heq]

/-- Closed witness for C10: a negative randomness `r = -3` opens
successfully (here `g^(-3) * h^3 = 3 * 6 = 18` in the order-11 group). -/
theorem pedersen_no_r_range_check_witness :
    R23.verifyDecommitment (some ⟨18, 5⟩) ⟨3, -3⟩ = .ok (some 3) :=
  (pedersen_no_r_range_check R23 ⟨18, 5⟩ 3 (-3) (by decide) (by decide)
    (by decide)).1.mpr (by decide)

/-- Law of the prover's response exponent: for a member `x`,
`x ^ ((r + (e*w) tmod q) tmod q) = x^r * (x^w)^e` (C++ truncating mods on
non-negative operands). -/
theorem exponentiate_response {p : ℕ} (G : DlogGroup p) (hq : 0 < G.q) {x : ZMod p}
    (hx : x ^ G.q = 1) {w r e : ℤ} (hw : 0 ≤ w) (hr : 0 ≤ r) (he : 0 ≤ e) :
    G.exponentiate x (Int.tmod (r + Int.tmod (e * w) (G.q : ℤ)) (G.q : ℤ))
      = G.exponentiate x r * G.exponentiate (G.exponentiate x w) e := by
  have hqz : (0 : ℤ) < (G.q : ℤ) := by exact_mod_cast hq
  have h1 : Int.tmod (e * w) (G.q : ℤ) = (e * w) % (G.q : ℤ) :=
    Int.tmod_eq_emod (mul_nonneg he hw) (le_of_lt hqz)
  have h2 : (0 : ℤ) ≤ (e * w) % (G.q : ℤ) := Int.emod_nonneg _ (ne_of_gt hqz)
  rw [h1, Int.tmod_eq_emod (add_nonneg hr h2) (le_of_lt hqz), exponentiate_emod,
    exponentiate_add G hq hx, exponentiate_emod, exponentiate_exponentiate G hq hx,
    mul_comm e w]

/-- Cancellation law behind the simulator: for a member `u`,
`u^(q - e) * u^e = 1`. -/
theorem exponentiate_sub_cancel {p : ℕ} (G : DlogGroup p) (hq : 0 < G.q) {u : ZMod p}
    (hu : u ^ G.q = 1) (e : ℤ) :
    G.exponentiate u ((G.q : ℤ) - e) * G.exponentiate u e = 1 := by
  have hsum : (G.q : ℤ) - e + e = (G.q : ℤ) := by ring
  rw [← exponentiate_add G hq hu, hsum, exponentiate_order]

/-- C9: prover randomness zeroization.  Every successful
`computeSecondMsg` leaves the prover with `r = 0` and does not change the
group handle, the soundness parameter, or the stored input. -/
theorem prover_zeroizes_randomness {p : ℕ} (P : SigmaDHProverComputation p)
    (challenge : List ℕ) (z : ℤ) (P' : SigmaDHProverComputation p)
    (h : P.computeSecondMsg challenge = .ok (z, P')) :
    P'.r = 0 ∧ P'.dlog = P.dlog ∧ P'.t = P.t ∧ P'.input = P.input := by
  simp only [SigmaDHProverComputation.computeSecondMsg] at h
  split at h
  · exact absurd h (by simp)
  · split at h
    · exact absurd h (by simp)
    · rw [Except.ok.injEq, Prod.mk.injEq] at h
      obtain ⟨-, hP⟩ := h
      subst hP
      exact ⟨rfl, rfl, rfl, rfl⟩

/-- Closed witness for C9: the concrete prover `P719` on the byte
challenge `[3]` returns `z = (7 + 3*5) mod 359 = 22` with `r` reset to
`0` and all other state intact. -/
theorem prover_zeroizes_randomness_witness :
    (⟨G719, 8, some ⟨⟨64, 305, 16⟩, 5⟩, 0⟩ : SigmaDHProverComputation 719).r = 0
    ∧ (⟨G719, 8, some ⟨⟨64, 305, 16⟩, 5⟩, 0⟩ : SigmaDHProverComputation 719).dlog = P719.dlog
    ∧ (⟨G719, 8, some ⟨⟨64, 305, 16⟩, 5⟩, 0⟩ : SigmaDHProverComputation 719).t = P719.t
    ∧ (⟨G719, 8, some ⟨⟨64, 305, 16⟩, 5⟩, 0⟩ : SigmaDHProverComputation 719).input
      = P719.input :=
  prover_zeroizes_randomness P719 [3] 22 ⟨G719, 8, some ⟨⟨64, 305, 16⟩, 5⟩, 0⟩ (by decide)

/-- C6: soundness parameter rejection.  With `2^t ≥ q` all three SigmaDH
constructors fail (the verifier possibly on its prior group check); with
`2^t < q` the prover and simulator constructors succeed, and the
verifier does not fail on the soundness check (it succeeds whenever the
group is valid). -/
theorem soundness_param_rejection {p : ℕ} (G : DlogGroup p) (t : ℕ) :
    (G.q ≤ 2 ^ t →
      SigmaDHProverComputation.construct G t
          = .error (.invalidArgument "soundness parameter t does not satisfy 2^t<q")
        ∧ SigmaDHSimulator.construct G t
          = .error (.invalidArgument "soundness parameter t does not satisfy 2^t<q")
        ∧ ∀ V, SigmaDHVerifierComputation.construct G t ≠ .ok V)
    ∧ (2 ^ t < G.q →
      SigmaDHProverComputation.construct G t = .ok ⟨G, t, none, 0⟩
        ∧ SigmaDHSimulator.construct G t = .ok ⟨G, t⟩
        ∧ SigmaDHVerifierComputation.construct G t
            ≠ .error (.invalidArgument "soundness parameter t does not satisfy 2^t<q")
        ∧ (G.validateGroup = true →
            SigmaDHVerifierComputation.construct G t = .ok ⟨G, t, []⟩)) := by
  constructor
  · intro hle
    have hfalse : checkSoundnessParam G.q t = false := by
      simp only [checkSoundnessParam, decide_eq_false_iff_not]
      omega
    refine ⟨?_, ?_, ?_⟩
    · simp [SigmaDHProverComputation.construct, hfalse]
    · simp [SigmaDHSimulator.construct, hfalse]
    · intro V hV
      cases hvg : G.validGroup <;>
        simp [SigmaDHVerifierComputation.construct, DlogGroup.validateGroup, hvg, hfalse] at hV
  · intro hlt
    have htrue : checkSoundnessParam G.q t = true := by
      simp only [checkSoundnessParam, decide_eq_true_eq]
      omega
    refine ⟨?_, ?_, ?_, ?_⟩
    · simp [SigmaDHProverComputation.construct, htrue]
    · simp [SigmaDHSimulator.construct, htrue]
    · cases hvg : G.validGroup <;>
        simp [SigmaDHVerifierComputation.construct, DlogGroup.validateGroup, hvg, htrue]
    · intro hvg
      unfold DlogGroup.validateGroup at hvg
      simp [SigmaDHVerifierComputation.construct, DlogGroup.validateGroup, hvg, htrue]

/-- Closed witness for C6: over the order-11 group, `t = 8` (with
`2^8 = 256 ≥ 11`) is rejected by the prover constructor while `t = 3`
(with `2^3 = 8 < 11`) is accepted. -/
theorem soundness_param_rejection_witness :
    SigmaDHProverComputation.construct G23 8
        = .error (.invalidArgument "soundness parameter t does not satisfy 2^t<q")
    ∧ SigmaDHProverComputation.construct G23 3 = .ok ⟨G23, 3, none, 0⟩ :=
  ⟨((soundness_param_rejection G23 8).1 (by decide)).1,
   ((soundness_param_rejection G23 3).2 (by decide)).1⟩

/-- C3: the SigmaDH verification condition.  On first-message elements
that lie in the group, `verify` returns `true` (clearing the retained
challenge) exactly when `h` is a member, `g^z = a * u^e`, and
`h^z = b * v^e`, with `e` the integer decoded from the retained
challenge bytes. -/
theorem sigma_dh_verify_iff {p : ℕ} (V : SigmaDHVerifierComputation p)
    (input : SigmaDHCommonInput p) (m : SigmaDHMsg p) (z : ℤ)
    (ha : m.a ^ V.dlog.q = 1) (hb : m.b ^ V.dlog.q = 1) :
    V.verify input m z = .ok (true, ⟨V.dlog, V.t, []⟩) ↔
      (input.h ^ V.dlog.q = 1
        ∧ V.dlog.exponentiate V.dlog.g z
            = V.dlog.multiply m.a (V.dlog.exponentiate input.u (decodeBigInteger V.e))
        ∧ V.dlog.exponentiate input.h z
            = V.dlog.multiply m.b (V.dlog.exponentiate input.v (decodeBigInteger V.e))) := by
  have hma : V.dlog.isMember m.a = true := by simp [DlogGroup.isMember, ha]
  have hmb : V.dlog.isMember m.b = true := by simp [DlogGroup.isMember, hb]
  simp only [SigmaDHVerifierComputation.verify, DlogGroup.reconstructElement, hma, hmb,
    Bool.not_true, Bool.and_false, Bool.false_eq_true, if_false]
  rw [Except.ok.injEq, Prod.mk.injEq]
  simp [DlogGroup.isMember, Bool.and_eq_true, decide_eq_true_eq, and_assoc]

/-- Closed witness for C3: the verification condition instantiated in the
order-359 group at `(h, u, v) = (64, 305, 16)`, first message `(4, 64)`,
response `9`, retained challenge `[3]`. -/
theorem sigma_dh_verify_iff_witness :
    SigmaDHVerifierComputation.verify ⟨G719, 8, [3]⟩ ⟨64, 305, 16⟩ ⟨4, 64⟩ 9
        = .ok (true, ⟨G719, 8, []⟩) ↔
      ((64 : ZMod 719) ^ G719.q = 1
        ∧ G719.exponentiate G719.g 9
            = G719.multiply 4 (G719.exponentiate 305 (decodeBigInteger [3]))
        ∧ G719.exponentiate 64 9
            = G719.multiply 64 (G719.exponentiate 16 (decodeBigInteger [3]))) :=
  sigma_dh_verify_iff ⟨G719, 8, [3]⟩ ⟨64, 305, 16⟩ ⟨4, 64⟩ 9 (by decide) (by decide)

/-- C2: SigmaDH completeness.  For a DH tuple `(g, h, u = g^w, v = h^w)`
with member `h`, composing the honest prover's `computeFirstMsg`
(`a = g^r`, `b = h^r`) and `computeSecondMsg` (`z = (r + e*w) mod q`)
with the verifier's `verify` on the same retained challenge yields
`true`. -/
theorem sigma_dh_completeness {p : ℕ} (G : DlogGroup p) (hq : 0 < G.q)
    (hg : G.g ^ G.q = 1) (h : ZMod p) (hh : h ^ G.q = 1) (w r : ℤ)
    (hw0 : 0 ≤ w) (hr0 : 0 ≤ r) (t : ℕ) (challenge : List ℕ)
    (hlen : challenge.length * 8 = t) (z : ℤ) (P' : SigmaDHProverComputation p)
    (hsecond : SigmaDHProverComputation.computeSecondMsg
        ((SigmaDHProverComputation.computeFirstMsg ⟨G, t, none, 0⟩
          ⟨⟨h, G.exponentiate G.g w, G.exponentiate h w⟩, w⟩ r).2) challenge
        = .ok (z, P')) :
    SigmaDHVerifierComputation.verify ⟨G, t, challenge⟩
        ⟨h, G.exponentiate G.g w, G.exponentiate h w⟩
        ((SigmaDHProverComputation.computeFirstMsg ⟨G, t, none, 0⟩
          ⟨⟨h, G.exponentiate G.g w, G.exponentiate h w⟩, w⟩ r).1) z
      = .ok (true, ⟨G, t, []⟩) := by
  have hchk : checkChallengeLength t challenge.length = true := by
    simp [checkChallengeLength, hlen]
  simp only [SigmaDHProverComputation.computeFirstMsg,
    SigmaDHProverComputation.computeSecondMsg, hchk, Bool.not_true, Bool.false_eq_true,
    if_false] at hsecond
  rw [Except.ok.injEq, Prod.mk.injEq] at hsecond
  obtain ⟨hz, -⟩ := hsecond
  subst hz
  have he0 : (0 : ℤ) ≤ decodeBigInteger challenge := by
    unfold decodeBigInteger
    exact Int.natCast_nonneg _
  have hma : G.isMember (G.exponentiate G.g r) = true := by
    simp [DlogGroup.isMember, member_exponentiate G hg r]
  have hmb : G.isMember (G.exponentiate h r) = true := by
    simp [DlogGroup.isMember, member_exponentiate G hh r]
  have hmh : G.isMember h = true := by simp [DlogGroup.isMember, hh]
  have heq1 := exponentiate_response G hq hg hw0 hr0 he0
  have heq2 := exponentiate_response G hq hh hw0 hr0 he0
  simp only [SigmaDHProverComputation.computeFirstMsg,
    SigmaDHVerifierComputation.verify, DlogGroup.reconstructElement, hma, hmb,
    Bool.not_true, Bool.and_false, Bool.false_eq_true, if_false]
  rw [hmh]
  simp [DlogGroup.multiply, heq1, heq2]

/-- Closed witness for C2: the prover with witness `w = 5`, randomness
`r = 7`, and challenge byte `[3]` convinces the verifier over the
order-359 group with `h = 64`. -/
theorem sigma_dh_completeness_witness :
    SigmaDHVerifierComputation.verify ⟨G719, 8, [3]⟩
        ⟨64, G719.exponentiate G719.g 5, G719.exponentiate 64 5⟩
        ((SigmaDHProverComputation.computeFirstMsg ⟨G719, 8, none, 0⟩
          ⟨⟨64, G719.exponentiate G719.g 5, G719.exponentiate 64 5⟩, 5⟩ 7).1) 22
      = .ok (true, ⟨G719, 8, []⟩) :=
  sigma_dh_completeness G719 (by decide) (by decide) 64 (by decide) 5 7 (by decide)
    (by decide) 8 [3] (by decide) 22
    ⟨G719, 8, some ⟨⟨64, G719.exponentiate G719.g 5, G719.exponentiate 64 5⟩, 5⟩, 0⟩
    (by decide)

/-- C5: simulator soundness of output.  For members `h, u, v` and any
admissible challenge, the transcript produced by `simulate`
(`a = g^z * u^(q-e)`, `b = h^z * v^(q-e)`) satisfies both verification
equations, and the verifier accepts it. -/
theorem sigma_dh_simulator_sound {p : ℕ} (G : DlogGroup p) (hq : 0 < G.q)
    (hg : G.g ^ G.q = 1) {h u v : ZMod p} (hh : h ^ G.q = 1) (hu : u ^ G.q = 1)
    (hv : v ^ G.q = 1) (t : ℕ) (challenge : List ℕ) (hlen : challenge.length * 8 = t)
    (zS : ℤ) (out : SigmaSimulatorOutput p)
    (hsim : SigmaDHSimulator.simulate ⟨G, t⟩ ⟨h, u, v⟩ challenge zS = .ok out) :
    (G.exponentiate G.g out.z
        = G.multiply out.msg.a (G.exponentiate u (decodeBigInteger challenge))
      ∧ G.exponentiate h out.z
        = G.multiply out.msg.b (G.exponentiate v (decodeBigInteger challenge)))
    ∧ SigmaDHVerifierComputation.verify ⟨G, t, challenge⟩ ⟨h, u, v⟩ out.msg out.z
        = .ok (true, ⟨G, t, []⟩) := by
  have hchk : checkChallengeLength t challenge.length = true := by
    simp [checkChallengeLength, hlen]
  simp only [SigmaDHSimulator.simulate, hchk, Bool.not_true, Bool.false_eq_true,
    if_false] at hsim
  rw [Except.ok.injEq] at hsim
  subst hsim
  have key1 : G.exponentiate G.g zS
      = G.multiply (G.multiply (G.exponentiate G.g zS)
          (G.exponentiate u ((G.q : ℤ) - decodeBigInteger challenge)))
        (G.exponentiate u (decodeBigInteger challenge)) := by
    simp only [DlogGroup.multiply]
    rw [mul_assoc, exponentiate_sub_cancel G hq hu, mul_one]
  have key2 : G.exponentiate h zS
      = G.multiply (G.multiply (G.exponentiate h zS)
          (G.exponentiate v ((G.q : ℤ) - decodeBigInteger challenge)))
        (G.exponentiate v (decodeBigInteger challenge)) := by
    simp only [DlogGroup.multiply]
    rw [mul_assoc, exponentiate_sub_cancel G hq hv, mul_one]
  refine ⟨⟨key1, key2⟩, ?_⟩
  have hma : G.isMember (G.multiply (G.exponentiate G.g zS)
      (G.exponentiate u ((G.q : ℤ) - decodeBigInteger challenge))) = true := by
    simp [DlogGroup.isMember, DlogGroup.multiply,
      member_mul (member_exponentiate G hg zS) (member_exponentiate G hu _)]
  have hmb : G.isMember (G.multiply (G.exponentiate h zS)
      (G.exponentiate v ((G.q : ℤ) - decodeBigInteger challenge))) = true := by
    simp [DlogGroup.isMember, DlogGroup.multiply,
      member_mul (member_exponentiate G hh zS) (member_exponentiate G hv _)]
  have hmh : G.isMember h = true := by simp [DlogGroup.isMember, hh]
  simp only [SigmaDHVerifierComputation.verify, DlogGroup.reconstructElement, hma, hmb,
    Bool.not_true, Bool.and_false, Bool.false_eq_true, if_false]
  rw [hmh]
  simp [← key1, ← key2]

/-- Closed witness for C5: the simulated transcript at
`(h, u, v) = (64, 305, 16)`, challenge byte `[3]`, sampled `z = 7`, is
accepted by the verifier over the order-359 group. -/
theorem sigma_dh_simulator_sound_witness :
    ((G719.exponentiate G719.g 7
        = G719.multiply (G719.multiply (G719.exponentiate G719.g 7)
            (G719.exponentiate 305 ((359 : ℤ) - decodeBigInteger [3])))
          (G719.exponentiate 305 (decodeBigInteger [3]))
      ∧ G719.exponentiate 64 7
        = G719.multiply (G719.multiply (G719.exponentiate 64 7)
            (G719.exponentiate 16 ((359 : ℤ) - decodeBigInteger [3])))
          (G719.exponentiate 16 (decodeBigInteger [3])))
    ∧ SigmaDHVerifierComputation.verify ⟨G719, 8, [3]⟩ ⟨64, 305, 16⟩
        ⟨G719.multiply (G719.exponentiate G719.g 7)
            (G719.exponentiate 305 ((359 : ℤ) - decodeBigInteger [3])),
          G719.multiply (G719.exponentiate 64 7)
            (G719.exponentiate 16 ((359 : ℤ) - decodeBigInteger [3]))⟩ 7
        = .ok (true, ⟨G719, 8, []⟩)) :=
  sigma_dh_simulator_sound G719 (by decide) (by decide) (by decide) (by decide)
    (by decide) 8 [3] (by decide) 7
    ⟨⟨G719.multiply (G719.exponentiate G719.g 7)
        (G719.exponentiate 305 ((359 : ℤ) - decodeBigInteger [3])),
      G719.multiply (G719.exponentiate 64 7)
        (G719.exponentiate 16 ((359 : ℤ) - decodeBigInteger [3]))⟩, [3], 7⟩
    (by decide)

end Libscapi
